import Mathlib

/-!
Verification of the escape-sequence parser driver and the Windows console
renderer of the termwiz crate.

The parser drivers (`Parser::parse`, `Parser::parse_first`,
`Parser::parse_first_as_vec` in `termwiz/src/escape/parser/mod.rs`) are
embedded generically over a byte-driven action machine: `advance` consumes
one byte and returns the successor state together with the actions emitted
for that byte, in emission order.  This abstracts the `vte::Parser` state
machine together with the `Performer` callbacks of the source file.
-/

set_option maxHeartbeats 1000000

namespace Wez

/-- A byte-driven action machine.  `advance s b` consumes the single byte `b`
in state `s` and returns the successor state together with the (possibly
empty) list of actions the performer callbacks were invoked with for that
byte, in invocation order. -/
structure Machine (σ α : Type) where
  advance : σ → Nat → σ × List α

variable {σ α : Type}

/-- `Parser::parse`: push every byte through the state machine in order,
collecting the actions handed to the callback. -/
def parse (m : Machine σ α) : σ → List Nat → σ × List α
  | s, [] => (s, [])
  | s, b :: bs =>
    let r := m.advance s b
    let rest := parse m r.1 bs
    (rest.1, r.2 ++ rest.2)

/-- Worker loop of `Parser::parse_first`: advance byte by byte; the callback
stores only the first action it ever sees, and the loop breaks as soon as an
action has been recorded, remembering the 0-based iterator index `k + idx`.
The final result maps the index to the consumed length `idx + 1`. -/
def parse_first_go (m : Machine σ α) : σ → List Nat → Nat → Option (α × Nat) × σ
  | s, [], _ => (none, s)
  | s, b :: bs, k =>
    match m.advance s b with
    | (s1, []) => parse_first_go m s1 bs (k + 1)
    | (s1, a :: _) => (some (a, k + 1), s1)

/-- `Parser::parse_first`: consume bytes until the first action is emitted and
return it together with the 1-based count of consumed bytes; the updated
machine state is returned explicitly (the Rust method mutates `self`). -/
def parse_first (m : Machine σ α) (s : σ) (bytes : List Nat) : Option (α × Nat) × σ :=
  parse_first_go m s bytes 0

/-- Worker loop of `Parser::parse_first_as_vec`: advance byte by byte,
accumulating every action emitted; break as soon as the accumulator is
non-empty, remembering the iterator index. -/
def parse_first_as_vec_go (m : Machine σ α) : σ → List Nat → Nat → Option (List α × Nat) × σ
  | s, [], _ => (none, s)
  | s, b :: bs, k =>
    match m.advance s b with
    | (s1, []) => parse_first_as_vec_go m s1 bs (k + 1)
    | (s1, a :: t) => (some (a :: t, k + 1), s1)

/-- `Parser::parse_first_as_vec`: like `parse_first`, but returns every action
produced by the first emitting byte. -/
def parse_first_as_vec (m : Machine σ α) (s : σ) (bytes : List Nat) :
    Option (List α × Nat) × σ :=
  parse_first_as_vec_go m s bytes 0

/-- Modelled from the spec: SGR subcommand recognized from one CSI parameter
(§8 concrete scenarios: parameter 1 is bold, parameter 3 is italic; 0 resets). -/
inductive SgrCode
  | reset
  | bold
  | italic
  | other (n : Int)
deriving DecidableEq, Repr

/-- Modelled from the spec: map a single SGR parameter to its subcommand. -/
def sgrOfParam : Int → SgrCode
  | 0 => .reset
  | 1 => .bold
  | 3 => .italic
  | n => .other n

/-- Modelled from the spec: the typed action stream of §3, specialised to the
fragment of the dispatch decoding exercised here (`CSI::parse`,
`OperatingSystemCommand::parse` and `Esc::parse` live outside `src/`). -/
inductive VTAction
  | print (c : Nat)
  | control (b : Nat)
  | csiSgr (s : SgrCode)
  | csiUnspec (params : List Int) (inter : List Nat) (ignored : Bool) (finalByte : Nat)
  | escAct (intermediate : Option Nat) (control : Nat)
  | oscAct (fields : List (List Nat))
  | dcsEnter (params : List Int) (inter : List Nat) (ignored : Bool)
  | dcsData (b : Nat)
  | dcsExit
deriving DecidableEq, Repr

/-- Modelled from the spec: states of the VT500-family machine of §4.1 (the
`vte` crate is a dependency, not part of `src/`).  CSI/DCS parameter collection
carries the accumulated parameters, the in-progress parameter, the collected
intermediates and the overflow flag. -/
inductive VTState
  | ground
  | escape (inter : List Nat)
  | csi (params : List Int) (cur : Option Int) (inter : List Nat) (ignored : Bool)
  | csiIgnore
  | oscString (fields : List (List Nat)) (cur : List Nat)
  | oscEsc (fields : List (List Nat)) (cur : List Nat)
  | dcsParam (params : List Int) (cur : Option Int) (inter : List Nat) (ignored : Bool)
  | dcsPass
  | dcsEsc
  | sosPmApc
  | sosPmApcEsc
deriving DecidableEq, Repr

/-- Modelled from the spec: close the parameter list at dispatch time.  A
pending decimal parameter is appended; a trailing `;` contributes the default
0; an entirely empty parameter string dispatches with no parameters. -/
def csiFinalize (params : List Int) (cur : Option Int) : List Int :=
  match cur with
  | some v => params ++ [v]
  | none => if params.isEmpty then [] else params ++ [0]

/-- Modelled from the spec: CSI dispatch expansion (§4.1).  A dispatched SGR
(final byte `m`, no intermediates) decomposes into one action per parameter in
left-to-right order — the source iterates over `CSI::parse(...)` — while other
finals are kept as a single unspecified CSI action. -/
def csiActions (params : List Int) (inter : List Nat) (ignored : Bool) (finalByte : Nat) :
    List VTAction :=
  if finalByte = 0x6d ∧ inter = [] then
    (if params.isEmpty then [0] else params).map (fun p => .csiSgr (sgrOfParam p))
  else
    [.csiUnspec params inter ignored finalByte]

/-- Modelled from the spec: one step of the VT500-family state machine of
§4.1/§6, restricted to the framing rules the spec states (printables and C0/C1
in ground, ESC dispatch with at most one intermediate, CSI parameter /
intermediate collection with dispatch on a final in `0x40..0x7e`, OSC split on
`;` and terminated by BEL/ST, DCS `Enter`/`Data`/`Exit` framing, SOS/PM/APC
swallowed).  UTF-8 decoding of bytes `≥ 0xa0` and error-recovery transitions
the spec leaves unstated are not modelled; no claim exercises them. -/
def vtAdvance (s : VTState) (b : Nat) : VTState × List VTAction :=
  match s with
  | .ground =>
    if b = 0x1b then (.escape [], [])
    else if b ≤ 0x1f ∨ b = 0x7f ∨ (0x80 ≤ b ∧ b ≤ 0x9f) then (.ground, [.control b])
    else (.ground, [.print b])
  | .escape inter =>
    if b = 0x1b then (.escape [], [])
    else if b = 0x5b then (.csi [] none [] false, [])
    else if b = 0x5d then (.oscString [] [], [])
    else if b = 0x50 then (.dcsParam [] none [] false, [])
    else if b = 0x58 ∨ b = 0x5e ∨ b = 0x5f then (.sosPmApc, [])
    else if 0x20 ≤ b ∧ b ≤ 0x2f then (.escape (inter ++ [b]), [])
    else if 0x30 ≤ b ∧ b ≤ 0x7e then
      (.ground,
        [.escAct (match inter with | [i] => some i | _ => none) b])
    else if b ≤ 0x1f then (.escape inter, [.control b])
    else (.escape inter, [])
  | .csi params cur inter ignored =>
    if b = 0x1b then (.escape [], [])
    else if b ≤ 0x1f then (.csi params cur inter ignored, [.control b])
    else if 0x30 ≤ b ∧ b ≤ 0x39 then
      (.csi params (some ((cur.getD 0) * 10 + ((b : Int) - 0x30))) inter ignored, [])
    else if b = 0x3b then (.csi (params ++ [cur.getD 0]) none inter ignored, [])
    else if b = 0x3a ∨ (0x3c ≤ b ∧ b ≤ 0x3f) then (.csiIgnore, [])
    else if 0x20 ≤ b ∧ b ≤ 0x2f then
      (.csi params cur (if inter.length < 2 then inter ++ [b] else inter)
        (ignored ∨ 2 ≤ inter.length), [])
    else if 0x40 ≤ b ∧ b ≤ 0x7e then
      (.ground, csiActions (csiFinalize params cur) inter ignored b)
    else (.csi params cur inter ignored, [])
  | .csiIgnore =>
    if b = 0x1b then (.escape [], [])
    else if b ≤ 0x1f then (.csiIgnore, [.control b])
    else if 0x40 ≤ b ∧ b ≤ 0x7e then (.ground, [])
    else (.csiIgnore, [])
  | .oscString fields cur =>
    if b = 0x07 ∨ b = 0x9c then (.ground, [.oscAct (fields ++ [cur])])
    else if b = 0x1b then (.oscEsc fields cur, [])
    else if b = 0x3b then (.oscString (fields ++ [cur]) [], [])
    else (.oscString fields (cur ++ [b]), [])
  | .oscEsc fields cur =>
    if b = 0x5c then (.ground, [.oscAct (fields ++ [cur])])
    else (.ground, [])
  | .dcsParam params cur inter ignored =>
    if b = 0x1b then (.escape [], [])
    else if b ≤ 0x1f then (.dcsParam params cur inter ignored, [])
    else if 0x30 ≤ b ∧ b ≤ 0x39 then
      (.dcsParam params (some ((cur.getD 0) * 10 + ((b : Int) - 0x30))) inter ignored, [])
    else if b = 0x3b then (.dcsParam (params ++ [cur.getD 0]) none inter ignored, [])
    else if 0x20 ≤ b ∧ b ≤ 0x2f then
      (.dcsParam params cur (if inter.length < 2 then inter ++ [b] else inter)
        (ignored ∨ 2 ≤ inter.length), [])
    else if 0x40 ≤ b ∧ b ≤ 0x7e then
      (.dcsPass, [.dcsEnter (csiFinalize params cur) inter ignored])
    else (.dcsParam params cur inter ignored, [])
  | .dcsPass =>
    if b = 0x1b then (.dcsEsc, [])
    else if b = 0x9c then (.ground, [.dcsExit])
    else (.dcsPass, [.dcsData b])
  | .dcsEsc =>
    if b = 0x5c then (.ground, [.dcsExit])
    else (.ground, [])
  | .sosPmApc =>
    if b = 0x1b then (.sosPmApcEsc, [])
    else if b = 0x9c then (.ground, [])
    else (.sosPmApc, [])
  | .sosPmApcEsc =>
    if b = 0x5c then (.ground, [])
    else (.sosPmApc, [])

/-- The modelled machine packaged for the generic drivers. -/
def vtMachine : Machine VTState VTAction := ⟨vtAdvance⟩

/-- The byte sequence of the spec's concrete scenario `"\x1b[1;3m"`: a single
CSI terminator carrying two SGR subcommands. -/
def sgrBoldItalic : List Nat := [0x1b, 0x5b, 0x31, 0x3b, 0x33, 0x6d]

/-! ## Windows console renderer

`WindowsConsoleRenderer::render_to` of `termwiz/src/render/windows.rs` is
embedded as a pure state transformer.  The `ConsoleOutputHandle` methods are
modelled as events appended to a trace; `get_buffer_info` reads the console
state carried alongside, and `set_cursor_position` / `set_viewport` update it
(as the real console does).  Machine-integer casts of the source (`as i16`,
`as u32`) are made explicit through `asI16` / `asU32`; `u32` wrapping
arithmetic through `u32sub` / `u32add` / `u32mul`; Rust's `saturating_sub` on
`u32` is `Nat` subtraction. -/

/-- Sign-extending/truncating cast to `i16`, on unbounded integers. -/
def asI16 (x : Int) : Int := (x + 32768) % 65536 - 32768

/-- Truncating cast to `u32` (as applied to an `i16` or `usize` value). -/
def asU32 (x : Int) : Nat := (x % 4294967296).toNat

/-- Wrapping `u32` subtraction, for arguments below `2 ^ 32`. -/
def u32sub (a b : Nat) : Nat := (a + 4294967296 - b) % 4294967296

/-- Wrapping `u32` addition. -/
def u32add (a b : Nat) : Nat := (a + b) % 4294967296

/-- Wrapping `u32` multiplication. -/
def u32mul (a b : Nat) : Nat := a * b % 4294967296

/-- Modelled from the spec: text intensity levels of `CellAttributes` (§3;
`termwiz/src/cell.rs` is not under `src/`). -/
inductive Intensity
  | normal
  | bold
  | half
deriving DecidableEq, Repr

/-- Modelled from the spec: underline variants of `CellAttributes` (§3). -/
inductive Underline
  | none
  | single
  | double
deriving DecidableEq, Repr

/-- Modelled from the spec: an RGB triple carried by true-color attributes. -/
structure RGB where
  r : Nat
  g : Nat
  b : Nat
deriving DecidableEq, Repr

/-- Modelled from the spec: the `ColorAttribute` variants of §3. -/
inductive ColorAttribute
  | trueColorWithDefaultFallback (c : RGB)
  | trueColorWithPaletteFallback (c : RGB) (idx : Nat)
  | paletteIndex (idx : Nat)
  | default
deriving DecidableEq, Repr

/-- Modelled from the spec: the renderer-side attribute accumulator of §3. -/
structure CellAttributes where
  intensity : Intensity := .normal
  underline : Underline := .none
  italic : Bool := false
  blink : Bool := false
  reverse : Bool := false
  strikethrough : Bool := false
  invisible : Bool := false
  line_drawing : Bool := false
  foreground : ColorAttribute := .default
  background : ColorAttribute := .default
  hyperlink : Option String := none
deriving DecidableEq, Repr

/-- `CellAttributes::default()`. -/
def defaultAttributes : CellAttributes := {}

/-- Modelled from the spec: the `AttributeChange` variants (§3), one per
mutable field of `CellAttributes`. -/
inductive AttributeChange
  | intensity (v : Intensity)
  | underline (v : Underline)
  | italic (v : Bool)
  | blink (v : Bool)
  | reverse (v : Bool)
  | strikethrough (v : Bool)
  | invisible (v : Bool)
  | foreground (c : ColorAttribute)
  | background (c : ColorAttribute)
  | hyperlink (l : Option String)
  | lineDrawing (v : Bool)
deriving DecidableEq, Repr

/-- Modelled from the spec: one coordinate of `CursorPosition` (§3).
`Absolute` and `EndRelative` carry a `usize`, `Relative` an `isize`. -/
inductive Position
  | noChange
  | absolute (n : Nat)
  | relative (d : Int)
  | endRelative (n : Nat)
deriving DecidableEq, Repr

/-- Modelled from the spec: the `Change` list consumed by the renderer (§3).
`Image` keeps only the width and height in cells — the only fields the
renderer reads; `CursorShape` is abstracted to a tag. -/
inductive Change
  | attribute (a : AttributeChange)
  | allAttributes (a : CellAttributes)
  | text (s : String)
  | clearScreen (c : ColorAttribute)
  | clearToEndOfLine (c : ColorAttribute)
  | clearToEndOfScreen (c : ColorAttribute)
  | cursorPosition (x : Position) (y : Position)
  | cursorColor (c : ColorAttribute)
  | cursorShape (tag : Nat)
  | image (width : Nat) (height : Nat)
  | scrollRegionUp (first_row : Nat) (region_size : Nat) (scroll_count : Nat)
  | scrollRegionDown (first_row : Nat) (region_size : Nat) (scroll_count : Nat)
  | title (s : String)
deriving DecidableEq, Repr

/-- Modelled from the spec: the console state read through
`get_buffer_info` (§3): screen-buffer size, cursor, viewport rectangle.  The
fields are the `i16` values of the `CONSOLE_SCREEN_BUFFER_INFO` structure. -/
structure BufferInfo where
  dwSizeX : Int
  dwSizeY : Int
  dwCursorPositionX : Int
  dwCursorPositionY : Int
  srWindowLeft : Int
  srWindowTop : Int
  srWindowRight : Int
  srWindowBottom : Int
deriving DecidableEq, Repr

/-- One call issued on the `ConsoleOutputHandle` during `render_to`. -/
inductive Event
  | flush
  | getBufferInfo
  | setViewport (l : Int) (t : Int) (r : Int) (b : Int)
  | fillChar (ch : Char) (x : Int) (y : Int) (count : Nat)
  | fillAttr (word : Nat) (x : Int) (y : Int) (count : Nat)
  | setCursorPosition (x : Int) (y : Int)
  | setAttr (word : Nat)
  | scrollRegion (l : Int) (t : Int) (r : Int) (b : Int) (dx : Int) (dy : Int) (word : Nat)
  | write (s : String)
deriving DecidableEq, Repr

/-- The renderer plus console as seen through the handle: the running
`current_attr`, the console's buffer info, and the trace of issued calls. -/
structure RenderState where
  current_attr : CellAttributes
  info : BufferInfo
  events : List Event
deriving DecidableEq, Repr

/-- Append one handle call to the trace. -/
def emit (s : RenderState) (e : Event) : RenderState :=
  { s with events := s.events ++ [e] }

def out_flush (s : RenderState) : RenderState := emit s .flush

/-- `get_buffer_info` returns the current console info and is recorded in the
trace. -/
def out_get_buffer_info (s : RenderState) : BufferInfo × RenderState :=
  (s.info, emit s .getBufferInfo)

def out_set_viewport (s : RenderState) (l t r b : Int) : RenderState :=
  let s1 := emit s (.setViewport l t r b)
  { s1 with info := { s1.info with
      srWindowLeft := l, srWindowTop := t, srWindowRight := r, srWindowBottom := b } }

def out_fill_char (s : RenderState) (ch : Char) (x y : Int) (count : Nat) : RenderState :=
  emit s (.fillChar ch x y count)

def out_fill_attr (s : RenderState) (word : Nat) (x y : Int) (count : Nat) : RenderState :=
  emit s (.fillAttr word x y count)

def out_set_cursor_position (s : RenderState) (x y : Int) : RenderState :=
  let s1 := emit s (.setCursorPosition x y)
  { s1 with info := { s1.info with dwCursorPositionX := x, dwCursorPositionY := y } }

def out_set_attr (s : RenderState) (word : Nat) : RenderState := emit s (.setAttr word)

def out_scroll_region (s : RenderState) (l t r b dx dy : Int) (word : Nat) : RenderState :=
  emit s (.scrollRegion l t r b dx dy word)

def out_write (s : RenderState) (txt : String) : RenderState := emit s (.write txt)

def FOREGROUND_BLUE : Nat := 0x1
def FOREGROUND_GREEN : Nat := 0x2
def FOREGROUND_RED : Nat := 0x4
def FOREGROUND_INTENSITY : Nat := 0x8
def BACKGROUND_BLUE : Nat := 0x10
def BACKGROUND_GREEN : Nat := 0x20
def BACKGROUND_RED : Nat := 0x40
def BACKGROUND_INTENSITY : Nat := 0x80
def COMMON_LVB_REVERSE_VIDEO : Nat := 0x4000
def COMMON_LVB_UNDERSCORE : Nat := 0x8000

/-- The fixed ANSI palette mapping of the `ansi_colors!` macro: palette index
0–15 to the R/G/B/Intensity bit combination listed in the source; any other
index falls back to the default variant's bits (`from_u8(...).unwrap_or`),
which the caller passes in as `dflt`. -/
def ansiColorBits (idx : Nat) (dflt red green blue bright : Nat) : Nat :=
  match idx with
  | 0 => 0
  | 1 => red
  | 2 => green
  | 3 => red ||| green
  | 4 => blue
  | 5 => red ||| blue
  | 6 => green ||| blue
  | 7 => red ||| green ||| blue
  | 8 => bright
  | 9 => bright ||| red
  | 10 => bright ||| green
  | 11 => bright ||| red ||| green
  | 12 => bright ||| blue
  | 13 => bright ||| red ||| blue
  | 14 => bright ||| green ||| blue
  | 15 => bright ||| red ||| green ||| blue
  | _ => dflt

/-- `to_attr_word` of `termwiz/src/render/windows.rs`: pack a 16-bit legacy
console attribute word from the cell attributes. -/
def to_attr_word (attr : CellAttributes) : Nat :=
  let fg :=
    match attr.foreground with
    | .trueColorWithDefaultFallback _ | .default =>
      FOREGROUND_BLUE ||| FOREGROUND_RED ||| FOREGROUND_GREEN ||| FOREGROUND_INTENSITY
    | .trueColorWithPaletteFallback _ idx | .paletteIndex idx =>
      ansiColorBits idx
        (FOREGROUND_RED ||| FOREGROUND_GREEN ||| FOREGROUND_BLUE ||| FOREGROUND_INTENSITY)
        FOREGROUND_RED FOREGROUND_GREEN FOREGROUND_BLUE FOREGROUND_INTENSITY
  let bg :=
    match attr.background with
    | .trueColorWithDefaultFallback _ | .default => 0
    | .trueColorWithPaletteFallback _ idx | .paletteIndex idx =>
      ansiColorBits idx 0
        BACKGROUND_RED BACKGROUND_GREEN BACKGROUND_BLUE BACKGROUND_INTENSITY
  let rev := if attr.reverse then COMMON_LVB_REVERSE_VIDEO else 0
  let und := if attr.underline ≠ Underline.none then COMMON_LVB_UNDERSCORE else 0
  bg ||| fg ||| rev ||| und

/-- Modelled from the spec: the `AttributeChange` arms of `render_to` update
exactly one field of `current_attr` through the `cell.rs` setters. -/
def applyAttributeChange (attr : CellAttributes) : AttributeChange → CellAttributes
  | .intensity v => { attr with intensity := v }
  | .underline v => { attr with underline := v }
  | .italic v => { attr with italic := v }
  | .blink v => { attr with blink := v }
  | .reverse v => { attr with reverse := v }
  | .strikethrough v => { attr with strikethrough := v }
  | .invisible v => { attr with invisible := v }
  | .foreground c => { attr with foreground := c }
  | .background c => { attr with background := c }
  | .hyperlink l => { attr with hyperlink := l }
  | .lineDrawing v => { attr with line_drawing := v }

/-- The horizontal coordinate match of the `CursorPosition` arm: the full
screen-buffer width is used, all arithmetic on `i16`. -/
def resolve_x_code (info : BufferInfo) : Position → Int
  | .noChange => info.dwCursorPositionX
  | .absolute n => asI16 n
  | .relative d => asI16 (info.dwCursorPositionX + asI16 d)
  | .endRelative d => asI16 (info.dwSizeX - asI16 d)

/-- The vertical coordinate match of the `CursorPosition` arm: movement is
constrained to the viewport, all arithmetic on `i16`. -/
def resolve_y_code (info : BufferInfo) : Position → Int
  | .noChange => info.dwCursorPositionY
  | .absolute n => asI16 (info.srWindowTop + asI16 n)
  | .relative d => asI16 (info.dwCursorPositionY + asI16 d)
  | .endRelative d => asI16 (info.srWindowBottom - asI16 d)

/-- One iteration of the `for change in changes` loop of `render_to`,
translated arm by arm from `termwiz/src/render/windows.rs`. -/
def render_change (st : RenderState) (c : Change) : RenderState :=
  match c with
  | .clearScreen color =>
    let s := out_flush st
    let s := { s with current_attr := { defaultAttributes with background := color } }
    let r := out_get_buffer_info s
    let info := r.1
    let s := r.2
    let s :=
      if info.srWindowLeft ≠ 0 then
        out_set_viewport s 0 info.srWindowTop
          (asI16 (info.srWindowRight - info.srWindowLeft)) info.srWindowBottom
      else s
    let visible_width := asU32 info.dwSizeX
    let visible_height := u32sub (asU32 info.dwSizeY) (asU32 info.srWindowTop)
    let num_spaces := u32mul visible_width visible_height
    let s := out_fill_char s ' ' 0 info.srWindowTop num_spaces
    let s := out_fill_attr s (to_attr_word s.current_attr) 0 info.srWindowTop num_spaces
    out_set_cursor_position s 0 info.srWindowTop
  | .clearToEndOfLine color =>
    let s := out_flush st
    let s := { s with current_attr := { defaultAttributes with background := color } }
    let r := out_get_buffer_info s
    let info := r.1
    let s := r.2
    let width := asU32 info.dwSizeX - asU32 info.dwCursorPositionX
    let s := out_fill_char s ' ' info.dwCursorPositionX info.dwCursorPositionY width
    out_fill_attr s (to_attr_word s.current_attr)
      info.dwCursorPositionX info.dwCursorPositionY width
  | .clearToEndOfScreen color =>
    let s := out_flush st
    let s := { s with current_attr := { defaultAttributes with background := color } }
    let r := out_get_buffer_info s
    let info := r.1
    let s := r.2
    let width := asU32 info.dwSizeX - asU32 info.dwCursorPositionX
    let s := out_fill_char s ' ' info.dwCursorPositionX info.dwCursorPositionY width
    let s := out_fill_attr s (to_attr_word s.current_attr)
      info.dwCursorPositionX info.dwCursorPositionY width
    let visible_width := asU32 info.dwSizeX
    let visible_height := asU32 info.dwSizeY - u32add (asU32 info.dwCursorPositionY) 1
    let num_spaces := u32mul visible_width visible_height
    let s := out_fill_char s ' ' 0 (asI16 (info.dwCursorPositionY + 1)) num_spaces
    out_fill_attr s (to_attr_word s.current_attr) 0 (asI16 (info.dwCursorPositionY + 1)) num_spaces
  | .text txt =>
    let s := out_flush st
    let s := out_set_attr s (to_attr_word s.current_attr)
    out_write s txt
  | .cursorPosition px py =>
    let s := out_flush st
    let r := out_get_buffer_info s
    let info := r.1
    let s := r.2
    out_set_cursor_position s (resolve_x_code info px) (resolve_y_code info py)
  | .attribute a => { st with current_attr := applyAttributeChange st.current_attr a }
  | .allAttributes a => { st with current_attr := a }
  | .cursorColor _ => st
  | .cursorShape _ => st
  | .image w h =>
    let s := out_flush st
    let r := out_get_buffer_info s
    let info := r.1
    let s := r.2
    let s := (List.range h).foldl
      (fun (s : RenderState) (y : Nat) =>
        out_fill_char s ' ' info.dwCursorPositionX
          (asI16 (asI16 y + info.dwCursorPositionY)) (asU32 w)) s
    out_set_cursor_position s (asI16 (info.dwCursorPositionX + asI16 w)) info.dwCursorPositionY
  | .scrollRegionUp f rs sc =>
    if 0 < rs then
      let r := out_get_buffer_info st
      let info := r.1
      let s := r.2
      out_scroll_region s info.srWindowLeft (asI16 (info.srWindowTop + asI16 f))
        info.srWindowRight (asI16 (asI16 (info.srWindowTop + asI16 f) + asI16 rs))
        0 (asI16 (-(asI16 sc))) (to_attr_word s.current_attr)
    else st
  | .scrollRegionDown f rs sc =>
    if 0 < rs then
      let r := out_get_buffer_info st
      let info := r.1
      let s := r.2
      out_scroll_region s info.srWindowLeft (asI16 (info.srWindowTop + asI16 f))
        info.srWindowRight (asI16 (asI16 (info.srWindowTop + asI16 f) + asI16 rs))
        0 (asI16 sc) (to_attr_word s.current_attr)
    else st
  | .title _ => st

/-- The change-processing loop of `render_to`, before the final flush and
`set_attr`. -/
def render_changes (attr : CellAttributes) (info : BufferInfo) (cs : List Change) :
    RenderState :=
  cs.foldl render_change { current_attr := attr, info := info, events := [] }

/-- `WindowsConsoleRenderer::render_to`: process every change in order, then
issue the final `flush` and `set_attr(current_attr)`. -/
def render_to (attr : CellAttributes) (info : BufferInfo) (cs : List Change) :
    RenderState :=
  let s := render_changes attr info cs
  let s := out_flush s
  out_set_attr s (to_attr_word s.current_attr)

/-- One cell of the console screen buffer: a character and an attribute word. -/
structure ConCell where
  ch : Char
  attr : Nat
deriving DecidableEq, Repr

/-- The screen buffer contents, indexed by column and row. -/
def Grid : Type := Int → Int → ConCell

/-- Cell-level semantics of the trace, for a buffer of width `w`.
`FillConsoleOutputCharacter`/`Attribute` fill `count` cells starting at
`(x, y)` in row-major order, wrapping to following rows: a buffer cell
`(a, b)` (with `0 ≤ a < w`) is affected iff its row-major index `w * b + a`
lies in `[w * y + x, w * y + x + count)`.  Only the two fill calls mutate
cells here; the grid effect of `scroll_region` and of written text is not
needed by any claim and those events leave the grid unchanged. -/
def applyEvent (w : Int) (g : Grid) : Event → Grid
  | .fillChar c x y n => fun a b =>
    if 0 ≤ a ∧ a < w ∧ w * y + x ≤ w * b + a ∧ w * b + a < w * y + x + n then
      { g a b with ch := c }
    else g a b
  | .fillAttr v x y n => fun a b =>
    if 0 ≤ a ∧ a < w ∧ w * y + x ≤ w * b + a ∧ w * b + a < w * y + x + n then
      { g a b with attr := v }
    else g a b
  | _ => g

/-- Apply a whole trace to the screen buffer. -/
def applyEvents (w : Int) (g : Grid) (evs : List Event) : Grid :=
  evs.foldl (applyEvent w) g

/-- A concrete buffer info used by the closed counterexamples and witnesses:
an 80×100 screen buffer whose viewport is rows 5–29, cursor at `(3, 10)`. -/
def info0 : BufferInfo :=
  { dwSizeX := 80, dwSizeY := 100, dwCursorPositionX := 3, dwCursorPositionY := 10,
    srWindowLeft := 0, srWindowTop := 5, srWindowRight := 79, srWindowBottom := 29 }

/-- A small buffer info for the `ClearScreen` witness: 4×6 buffer, viewport
top at row 2. -/
def info4 : BufferInfo :=
  { dwSizeX := 4, dwSizeY := 6, dwCursorPositionX := 1, dwCursorPositionY := 3,
    srWindowLeft := 0, srWindowTop := 2, srWindowRight := 3, srWindowBottom := 5 }

/-- A concrete grid used by witnesses. -/
def gridQ : Grid := fun _ _ => { ch := 'Q', attr := 7 }

/-- `true` exactly on the two scroll-region changes. -/
def isScrollRegionChange : Change → Bool
  | .scrollRegionUp _ _ _ => true
  | .scrollRegionDown _ _ _ => true
  | _ => false

/-- A trace segment that is either empty or opens with a `flush`. -/
def flushLeads (l : List Event) : Prop := l = [] ∨ l.head? = some Event.flush

/-- `true` on the handle calls that read `BufferInfo` or mutate cells
(`get_buffer_info`, the fills, `scroll_region`): the calls the spec's flush
discipline covers. -/
def readsOrFills : Event → Bool
  | .getBufferInfo => true
  | .fillChar _ _ _ _ => true
  | .fillAttr _ _ _ _ => true
  | .scrollRegion _ _ _ _ _ _ _ => true
  | _ => false

/-- The claim's flush discipline, as a property of a trace: every read/fill
call has some `flush` strictly before it. -/
def flushPrecedesEachRead (l : List Event) : Prop :=
  ∀ i, (h : i < l.length) → readsOrFills (l.get ⟨i, h⟩) = true →
    ∃ j, ∃ (hj : j < l.length), j < i ∧ l.get ⟨j, hj⟩ = Event.flush

/-- Count the `set_attr` calls in a trace. -/
def countSetAttr (l : List Event) : Nat :=
  (l.filter (fun e => match e with | .setAttr _ => true | _ => false)).length

/-- Stated from the claim's words, for comparison with `resolve_x_code`:
horizontally, `NoChange` keeps the current column, `Absolute(x)` is `x` in
screen-buffer coordinates, `Relative(d)` adds `d` to the current column, and
`EndRelative(d)` is `dwSize.X - d` — in plain integer arithmetic. -/
def spec_resolve_x (info : BufferInfo) : Position → Int
  | .noChange => info.dwCursorPositionX
  | .absolute n => n
  | .relative d => info.dwCursorPositionX + d
  | .endRelative d => info.dwSizeX - d

/-- Stated from the claim's words, for comparison with `resolve_y_code`:
vertically, `NoChange` keeps the current row, `Absolute(y)` is
`srWindow.Top + y`, `Relative(d)` adds `d` to the current row, and
`EndRelative(d)` is `srWindow.Bottom - d` — in plain integer arithmetic. -/
def spec_resolve_y (info : BufferInfo) : Position → Int
  | .noChange => info.dwCursorPositionY
  | .absolute n => info.srWindowTop + n
  | .relative d => info.dwCursorPositionY + d
  | .endRelative d => info.srWindowBottom - d

/-- The horizontal coordinate stays inside `i16` range, so the source's `i16`
casts are value-preserving. -/
def posInRangeH (info : BufferInfo) : Position → Prop
  | .noChange => True
  | .absolute n => (n : Int) < 32768
  | .relative d => -32768 ≤ d ∧ d < 32768 ∧
      -32768 ≤ info.dwCursorPositionX + d ∧ info.dwCursorPositionX + d < 32768
  | .endRelative n => (n : Int) < 32768 ∧
      -32768 ≤ info.dwSizeX - n ∧ info.dwSizeX - n < 32768

/-- The vertical coordinate stays inside `i16` range. -/
def posInRangeV (info : BufferInfo) : Position → Prop
  | .noChange => True
  | .absolute n => (n : Int) < 32768 ∧
      -32768 ≤ info.srWindowTop + n ∧ info.srWindowTop + n < 32768
  | .relative d => -32768 ≤ d ∧ d < 32768 ∧
      -32768 ≤ info.dwCursorPositionY + d ∧ info.dwCursorPositionY + d < 32768
  | .endRelative n => (n : Int) < 32768 ∧
      -32768 ≤ info.srWindowBottom - n ∧ info.srWindowBottom - n < 32768

/-- The scroll-region parameters stay inside `i16` range, so the source's
`i16` casts are value-preserving. -/
def scrollBounds (info : BufferInfo) (f rs sc : Nat) : Prop :=
  (f : Int) < 32768 ∧ (rs : Int) < 32768 ∧ (sc : Int) < 32768 ∧
  -32768 ≤ info.srWindowTop + f ∧ info.srWindowTop + f + rs < 32768

end Wez

namespace Wez

lemma parse_nil (m : Machine σ α) (s : σ) : parse m s [] = (s, []) := rfl

lemma parse_cons (m : Machine σ α) (s : σ) (b : Nat) (bs : List Nat) :
    parse m s (b :: bs) =
      ((parse m (m.advance s b).1 bs).1, (m.advance s b).2 ++ (parse m (m.advance s b).1 bs).2) :=
  rfl

lemma parse_first_go_eq_none (m : Machine σ α) (bytes : List Nat) :
    ∀ (s : σ) (k : Nat) (s' : σ),
      parse_first_go m s bytes k = (none, s') ↔
        ((parse m s bytes).2 = [] ∧ s' = (parse m s bytes).1) := by
  induction bytes with
  | nil =>
    intro s k s'
    simp [parse_first_go, parse_nil, eq_comm]
  | cons b bs ih =>
    intro s k s'
    rcases hadv : m.advance s b with ⟨s1, out⟩
    cases out with
    | nil =>
      have hstep : parse_first_go m s (b :: bs) k = parse_first_go m s1 bs (k + 1) := by
        simp [parse_first_go, hadv]
      rw [hstep, ih s1 (k + 1) s', parse_cons, hadv]
      simp
    | cons a t =>
      have hstep : parse_first_go m s (b :: bs) k = (some (a, k + 1), s1) := by
        simp [parse_first_go, hadv]
      rw [hstep, parse_cons, hadv]
      simp

lemma parse_first_go_eq_some (m : Machine σ α) (bytes : List Nat) :
    ∀ (s : σ) (k : Nat) (a : α) (n : Nat) (s' : σ),
      parse_first_go m s bytes k = (some (a, n), s') ↔
        ∃ j, j < bytes.length ∧ n = k + j + 1 ∧
          (parse m s (bytes.take j)).2 = [] ∧
          (parse m s (bytes.take (j + 1))).2.head? = some a ∧
          s' = (parse m s (bytes.take (j + 1))).1 := by
  induction bytes with
  | nil =>
    intro s k a n s'
    simp [parse_first_go]
  | cons b bs ih =>
    intro s k a n s'
    rcases hadv : m.advance s b with ⟨s1, out⟩
    cases out with
    | nil =>
      have hstep : parse_first_go m s (b :: bs) k = parse_first_go m s1 bs (k + 1) := by
        simp [parse_first_go, hadv]
      rw [hstep, ih s1 (k + 1) a n s']
      constructor
      · rintro ⟨j, hj, hn, h1, h2, h3⟩
        refine ⟨j + 1, by simpa using Nat.succ_lt_succ hj, by omega, ?_, ?_, ?_⟩
        · simpa [List.take_succ_cons, parse_cons, hadv] using h1
        · simpa [List.take_succ_cons, parse_cons, hadv] using h2
        · simpa [List.take_succ_cons, parse_cons, hadv] using h3
      · rintro ⟨j, hj, hn, h1, h2, h3⟩
        match j with
        | 0 =>
          exfalso
          have : (parse m s (List.take 1 (b :: bs))).2.head? = some a := h2
          simp [List.take_succ_cons, parse_cons, hadv, parse_nil] at this
        | j' + 1 =>
          refine ⟨j', by simpa using Nat.lt_of_succ_lt_succ hj, by omega, ?_, ?_, ?_⟩
          · simpa [List.take_succ_cons, parse_cons, hadv] using h1
          · simpa [List.take_succ_cons, parse_cons, hadv] using h2
          · simpa [List.take_succ_cons, parse_cons, hadv] using h3
    | cons a0 t =>
      have hstep : parse_first_go m s (b :: bs) k = (some (a0, k + 1), s1) := by
        simp [parse_first_go, hadv]
      rw [hstep]
      constructor
      · intro h
        have ha : (a0 = a ∧ k + 1 = n) ∧ s1 = s' := by
          simpa [Prod.mk.injEq] using h
        rcases ha with ⟨⟨ha1, ha2⟩, ha3⟩
        refine ⟨0, by simp, by omega, by simp [parse_nil], ?_, ?_⟩
        · simp [List.take_succ_cons, parse_cons, hadv, parse_nil, ha1]
        · simp [List.take_succ_cons, parse_cons, hadv, parse_nil, ha3]
      · rintro ⟨j, hj, hn, h1, h2, h3⟩
        match j with
        | 0 =>
          simp [List.take_succ_cons, parse_cons, hadv, parse_nil] at h2 h3
          subst h3
          simp [h2, hn]
        | j' + 1 =>
          exfalso
          simp [List.take_succ_cons, parse_cons, hadv] at h1

lemma parse_first_as_vec_go_eq_none (m : Machine σ α) (bytes : List Nat) :
    ∀ (s : σ) (k : Nat) (s' : σ),
      parse_first_as_vec_go m s bytes k = (none, s') ↔
        ((parse m s bytes).2 = [] ∧ s' = (parse m s bytes).1) := by
  induction bytes with
  | nil =>
    intro s k s'
    simp [parse_first_as_vec_go, parse_nil, eq_comm]
  | cons b bs ih =>
    intro s k s'
    rcases hadv : m.advance s b with ⟨s1, out⟩
    cases out with
    | nil =>
      have hstep : parse_first_as_vec_go m s (b :: bs) k = parse_first_as_vec_go m s1 bs (k + 1) := by
        simp [parse_first_as_vec_go, hadv]
      rw [hstep, ih s1 (k + 1) s', parse_cons, hadv]
      simp
    | cons a t =>
      have hstep : parse_first_as_vec_go m s (b :: bs) k = (some (a :: t, k + 1), s1) := by
        simp [parse_first_as_vec_go, hadv]
      rw [hstep, parse_cons, hadv]
      simp

lemma parse_first_as_vec_go_eq_some (m : Machine σ α) (bytes : List Nat) :
    ∀ (s : σ) (k : Nat) (acts : List α) (n : Nat) (s' : σ),
      parse_first_as_vec_go m s bytes k = (some (acts, n), s') ↔
        ∃ j, j < bytes.length ∧ n = k + j + 1 ∧
          (parse m s (bytes.take j)).2 = [] ∧
          (parse m s (bytes.take (j + 1))).2 = acts ∧ acts ≠ [] ∧
          s' = (parse m s (bytes.take (j + 1))).1 := by
  induction bytes with
  | nil =>
    intro s k acts n s'
    simp [parse_first_as_vec_go]
  | cons b bs ih =>
    intro s k acts n s'
    rcases hadv : m.advance s b with ⟨s1, out⟩
    cases out with
    | nil =>
      have hstep : parse_first_as_vec_go m s (b :: bs) k = parse_first_as_vec_go m s1 bs (k + 1) := by
        simp [parse_first_as_vec_go, hadv]
      rw [hstep, ih s1 (k + 1) acts n s']
      constructor
      · rintro ⟨j, hj, hn, h1, h2, h4, h3⟩
        refine ⟨j + 1, by simpa using Nat.succ_lt_succ hj, by omega, ?_, ?_, h4, ?_⟩
        · simpa [List.take_succ_cons, parse_cons, hadv] using h1
        · simpa [List.take_succ_cons, parse_cons, hadv] using h2
        · simpa [List.take_succ_cons, parse_cons, hadv] using h3
      · rintro ⟨j, hj, hn, h1, h2, h4, h3⟩
        match j with
        | 0 =>
          exfalso
          simp [List.take_succ_cons, parse_cons, hadv, parse_nil] at h2
          exact h4 h2
        | j' + 1 =>
          refine ⟨j', by simpa using Nat.lt_of_succ_lt_succ hj, by omega, ?_, ?_, h4, ?_⟩
          · simpa [List.take_succ_cons, parse_cons, hadv] using h1
          · simpa [List.take_succ_cons, parse_cons, hadv] using h2
          · simpa [List.take_succ_cons, parse_cons, hadv] using h3
    | cons a0 t =>
      have hstep : parse_first_as_vec_go m s (b :: bs) k = (some (a0 :: t, k + 1), s1) := by
        simp [parse_first_as_vec_go, hadv]
      rw [hstep]
      constructor
      · intro h
        have ha : (a0 :: t = acts ∧ k + 1 = n) ∧ s1 = s' := by
          simpa [Prod.mk.injEq] using h
        rcases ha with ⟨⟨ha1, ha2⟩, ha3⟩
        refine ⟨0, by simp, by omega, by simp [parse_nil], ?_, ?_, ?_⟩
        · simp [List.take_succ_cons, parse_cons, hadv, parse_nil, ha1]
        · rw [← ha1]; simp
        · simp [List.take_succ_cons, parse_cons, hadv, parse_nil, ha3]
      · rintro ⟨j, hj, hn, h1, h2, h4, h3⟩
        match j with
        | 0 =>
          simp [List.take_succ_cons, parse_cons, hadv, parse_nil] at h2 h3
          subst h3
          simp [← h2, hn]
        | j' + 1 =>
          exfalso
          simp [List.take_succ_cons, parse_cons, hadv] at h1

/-- C5: for every byte sequence and every split `bytes = a ++ b`, feeding `a`
then `b` to the same parser instance yields, in concatenation, exactly the
actions of feeding `a ++ b` at once from the same initial state — and the same
final machine state. -/
theorem parse_streaming_split (m : Machine σ α) (s : σ) (a b : List Nat) :
    parse m s (a ++ b) =
      ((parse m (parse m s a).1 b).1, (parse m s a).2 ++ (parse m (parse m s a).1 b).2) := by
  induction a generalizing s with
  | nil => simp [parse_nil]
  | cons x xs ih =>
    simp only [List.cons_append, parse_cons, ih ((m.advance s x).1)]
    simp [List.append_assoc]

/-- C1 (amended): `parse_first` returns `some (action, n)` iff `parse` of the
first `n` bytes emits at least one action while `parse` of the first `n - 1`
bytes emits none; the returned action is the first action emitted and the
resulting machine state is the state after those `n` bytes.  When no prefix
completes an action the result is `none` and the machine state is exactly the
state after parsing the entire input, so a later call can complete the
sequence. -/
theorem parse_first_framing (m : Machine σ α) (s : σ) (bytes : List Nat) :
    (∀ (a : α) (n : Nat) (s' : σ),
      parse_first m s bytes = (some (a, n), s') ↔
        (0 < n ∧ n ≤ bytes.length ∧
          (parse m s (bytes.take (n - 1))).2 = [] ∧
          (parse m s (bytes.take n)).2.head? = some a ∧
          s' = (parse m s (bytes.take n)).1)) ∧
    (∀ s' : σ,
      parse_first m s bytes = (none, s') ↔
        ((parse m s bytes).2 = [] ∧ s' = (parse m s bytes).1)) := by
  constructor
  · intro a n s'
    rw [parse_first, parse_first_go_eq_some m bytes s 0 a n s']
    constructor
    · rintro ⟨j, hj, hn, h1, h2, h3⟩
      have hjn : j = n - 1 := by omega
      subst hjn
      refine ⟨by omega, by omega, h1, ?_, ?_⟩
      · have : n - 1 + 1 = n := by omega
        rwa [this] at h2
      · have : n - 1 + 1 = n := by omega
        rwa [this] at h3
    · rintro ⟨h0, hlen, h1, h2, h3⟩
      refine ⟨n - 1, by omega, by omega, h1, ?_, ?_⟩
      · have : n - 1 + 1 = n := by omega
        rwa [this]
      · have : n - 1 + 1 = n := by omega
        rwa [this]
  · intro s'
    rw [parse_first, parse_first_go_eq_none m bytes s 0 s']

/-- C1 counterexample: on the spec's own scenario `"\x1b[1;3m"` the call
`parse_first` returns `some` with consumed length 6, yet `parse` of those 6
bytes emits two actions, not exactly one: the single CSI terminator carries
two SGR subcommands.  The claim's "exactly one action" framing is therefore
false on the code. -/
theorem parse_first_two_actions_counterexample :
    parse_first vtMachine VTState.ground sgrBoldItalic
        = (some (VTAction.csiSgr SgrCode.bold, 6), VTState.ground) ∧
      (parse vtMachine VTState.ground (sgrBoldItalic.take 5)).2 = [] ∧
      (parse vtMachine VTState.ground (sgrBoldItalic.take 6)).2.length = 2 := by
  decide

/-- C7: `parse_first_as_vec` returns `some (actions, n)` iff the first `n - 1`
bytes emit nothing and the first `n` bytes emit exactly the non-empty list
`actions` (all produced by byte `n`, 1-based); it returns `none` exactly when
no byte of the input emits an action, and the machine state is retained in
both cases. -/
theorem parse_first_as_vec_framing (m : Machine σ α) (s : σ) (bytes : List Nat) :
    (∀ (acts : List α) (n : Nat) (s' : σ),
      parse_first_as_vec m s bytes = (some (acts, n), s') ↔
        (0 < n ∧ n ≤ bytes.length ∧
          (parse m s (bytes.take (n - 1))).2 = [] ∧
          (parse m s (bytes.take n)).2 = acts ∧ acts ≠ [] ∧
          s' = (parse m s (bytes.take n)).1)) ∧
    (∀ s' : σ,
      parse_first_as_vec m s bytes = (none, s') ↔
        ((parse m s bytes).2 = [] ∧ s' = (parse m s bytes).1)) := by
  constructor
  · intro acts n s'
    rw [parse_first_as_vec, parse_first_as_vec_go_eq_some m bytes s 0 acts n s']
    constructor
    · rintro ⟨j, hj, hn, h1, h2, h4, h3⟩
      have hjn : j = n - 1 := by omega
      subst hjn
      have he : n - 1 + 1 = n := by omega
      rw [he] at h2 h3
      exact ⟨by omega, by omega, h1, h2, h4, h3⟩
    · rintro ⟨h0, hlen, h1, h2, h4, h3⟩
      have he : n - 1 + 1 = n := by omega
      exact ⟨n - 1, by omega, by omega, h1, by rwa [he], h4, by rwa [he]⟩
  · intro s'
    rw [parse_first_as_vec, parse_first_as_vec_go_eq_none m bytes s 0 s']

lemma asI16_eq_self (z : Int) (h1 : -32768 ≤ z) (h2 : z < 32768) : asI16 z = z := by
  unfold asI16
  omega

lemma asU32_eq_toNat (x : Int) (h1 : 0 ≤ x) (h2 : x < 4294967296) : asU32 x = x.toNat := by
  unfold asU32
  omega

lemma resolve_x_eq_spec (info : BufferInfo) (px : Position) (hx : posInRangeH info px) :
    resolve_x_code info px = spec_resolve_x info px := by
  cases px with
  | noChange => rfl
  | absolute n =>
    simp only [posInRangeH] at hx
    simp only [resolve_x_code, spec_resolve_x]
    unfold asI16
    omega
  | relative d =>
    simp only [posInRangeH] at hx
    simp only [resolve_x_code, spec_resolve_x]
    unfold asI16
    omega
  | endRelative n =>
    simp only [posInRangeH] at hx
    simp only [resolve_x_code, spec_resolve_x]
    unfold asI16
    omega

lemma resolve_y_eq_spec (info : BufferInfo) (py : Position) (hy : posInRangeV info py) :
    resolve_y_code info py = spec_resolve_y info py := by
  cases py with
  | noChange => rfl
  | absolute n =>
    simp only [posInRangeV] at hy
    simp only [resolve_y_code, spec_resolve_y]
    unfold asI16
    omega
  | relative d =>
    simp only [posInRangeV] at hy
    simp only [resolve_y_code, spec_resolve_y]
    unfold asI16
    omega
  | endRelative n =>
    simp only [posInRangeV] at hy
    simp only [resolve_y_code, spec_resolve_y]
    unfold asI16
    omega

lemma foldl_out_fill_char (x : Int) (coordOf : Nat → Int) (cnt : Nat) (l : List Nat) :
    ∀ s : RenderState,
      l.foldl (fun s y => out_fill_char s ' ' x (coordOf y) cnt) s
        = { s with events := s.events ++ l.map (fun y => Event.fillChar ' ' x (coordOf y) cnt) } := by
  induction l with
  | nil =>
    intro s
    cases s
    simp
  | cons a t ih =>
    intro s
    rw [List.foldl_cons, ih]
    cases s
    simp [out_fill_char, emit]

/-- C2 (amended): every change arm except the two scroll-region arms opens its
handle calls, if it makes any, with a `flush` (so the `BufferInfo` reads and
the fills there see flushed output); the scroll-region arms, by contrast, read
`BufferInfo` with no preceding flush.  After processing all changes,
`render_to` issues a final `flush` followed by `set_attr(current_attr)`. -/
theorem flush_discipline_amended :
    (∀ (attr0 : CellAttributes) (info : BufferInfo) (c : Change),
      isScrollRegionChange c = false →
        flushLeads (render_change ⟨attr0, info, []⟩ c).events) ∧
    (∀ (attr0 : CellAttributes) (info : BufferInfo) (f rs sc : Nat), 0 < rs →
      (render_change ⟨attr0, info, []⟩ (Change.scrollRegionUp f rs sc)).events.head?
          = some Event.getBufferInfo ∧
      (render_change ⟨attr0, info, []⟩ (Change.scrollRegionDown f rs sc)).events.head?
          = some Event.getBufferInfo) ∧
    (∀ (attr0 : CellAttributes) (info : BufferInfo) (cs : List Change),
      ∃ l, (render_to attr0 info cs).events
        = l ++ [Event.flush, Event.setAttr (to_attr_word (render_to attr0 info cs).current_attr)]) := by
  refine ⟨?_, ?_, ?_⟩
  · intro attr0 info c hc
    cases c with
    | scrollRegionUp f rs sc => simp [isScrollRegionChange] at hc
    | scrollRegionDown f rs sc => simp [isScrollRegionChange] at hc
    | «attribute» a => exact Or.inl rfl
    | allAttributes a => exact Or.inl rfl
    | cursorColor col => exact Or.inl rfl
    | cursorShape t => exact Or.inl rfl
    | title t => exact Or.inl rfl
    | text t =>
      refine Or.inr ?_
      simp [render_change, out_flush, out_set_attr, out_write, emit]
    | clearScreen col =>
      refine Or.inr ?_
      simp only [render_change, out_flush, out_get_buffer_info, out_set_viewport,
        out_fill_char, out_fill_attr, out_set_cursor_position, emit]
      split <;> simp
    | clearToEndOfLine col =>
      refine Or.inr ?_
      simp [render_change, out_flush, out_get_buffer_info, out_fill_char, out_fill_attr, emit]
    | clearToEndOfScreen col =>
      refine Or.inr ?_
      simp [render_change, out_flush, out_get_buffer_info, out_fill_char, out_fill_attr, emit]
    | cursorPosition px py =>
      refine Or.inr ?_
      simp [render_change, out_flush, out_get_buffer_info, out_set_cursor_position, emit]
    | image w h =>
      refine Or.inr ?_
      simp only [render_change, out_flush, out_get_buffer_info, emit]
      rw [foldl_out_fill_char]
      simp [out_set_cursor_position, emit]
  · intro attr0 info f rs sc hrs
    constructor
    · simp [render_change, hrs, out_get_buffer_info, out_scroll_region, emit]
    · simp [render_change, hrs, out_get_buffer_info, out_scroll_region, emit]
  · intro attr0 info cs
    refine ⟨(render_changes attr0 info cs).events, ?_⟩
    simp [render_to, out_flush, out_set_attr, emit]

/-- Witness for C2 (amended): a `Text` change opens with `flush`; a
scroll-region change with positive region size opens with `get_buffer_info`
instead. -/
theorem flush_discipline_amended_witness :
    flushLeads (render_change ⟨defaultAttributes, info0, []⟩ (Change.text "x")).events ∧
    (render_change ⟨defaultAttributes, info0, []⟩ (Change.scrollRegionUp 0 1 1)).events.head?
      = some Event.getBufferInfo :=
  ⟨flush_discipline_amended.1 defaultAttributes info0 (Change.text "x") (by decide),
   (flush_discipline_amended.2.1 defaultAttributes info0 0 1 1 (by decide)).1⟩

/-- C2 counterexample: processing `[ScrollRegionUp{first_row: 0, region_size:
1, scroll_count: 1}]` yields a trace whose very first call is
`get_buffer_info` — no `flush` precedes it, contradicting the claim that the
renderer flushes before each read of `BufferInfo` and each scroll
operation. -/
theorem flush_discipline_counterexample :
    ¬ flushPrecedesEachRead
        (render_to defaultAttributes info0 [Change.scrollRegionUp 0 1 1]).events := by
  intro hcl
  obtain ⟨j, hj, hlt, hfl⟩ := hcl 0 (by decide) (by decide)
  omega

/-- C3 counterexample: over the whole `render_to` call, the change list
`[Attribute(Foreground = Red), Text("x")]` issues two `set_attr` calls (one
before the write and the unconditional final one), not exactly one; and the
list `[Attribute(Foreground = Red)]` alone still issues one attribute write
(the final `set_attr`), though no `Text` or fill change follows. -/
theorem attribute_deferral_counterexample :
    countSetAttr (render_to defaultAttributes info0
        [Change.attribute (AttributeChange.foreground (ColorAttribute.paletteIndex 9)),
         Change.text "x"]).events = 2 ∧
    countSetAttr (render_to defaultAttributes info0
        [Change.attribute (AttributeChange.foreground (ColorAttribute.paletteIndex 9))]).events
      = 1 := by
  decide

/-- C3 (amended): `Attribute(..)` and `AllAttributes(..)` changes issue no
console call and touch neither the trace nor the console state — only
`current_attr` is updated.  During change processing (before the final
flush/`set_attr` epilogue), `[Attribute(Foreground = Red), Text("x")]`
produces exactly one `set_attr`, carrying the red-mapped word
`FOREGROUND_RED | FOREGROUND_INTENSITY = 12`, immediately before the write of
the text bytes; `[Attribute(Foreground = Red)]` alone produces no call at
all.  (The epilogue then always appends one more `flush` and `set_attr`.) -/
theorem attribute_deferral_amended :
    (∀ (st : RenderState) (a : AttributeChange),
      (render_change st (Change.attribute a)).events = st.events ∧
      (render_change st (Change.attribute a)).info = st.info) ∧
    (∀ (st : RenderState) (a : CellAttributes),
      (render_change st (Change.allAttributes a)).events = st.events ∧
      (render_change st (Change.allAttributes a)).info = st.info) ∧
    (render_changes defaultAttributes info0
        [Change.attribute (AttributeChange.foreground (ColorAttribute.paletteIndex 9)),
         Change.text "x"]).events
      = [Event.flush, Event.setAttr 12, Event.write "x"] ∧
    (render_changes defaultAttributes info0
        [Change.attribute (AttributeChange.foreground (ColorAttribute.paletteIndex 9))]).events
      = [] := by
  exact ⟨fun st a => ⟨rfl, rfl⟩, fun st a => ⟨rfl, rfl⟩, by decide, by decide⟩

/-- C6: for every `CursorPosition{x, y}` change the coordinates handed to
`set_cursor_position` are resolved against the buffer info exactly as the
claim states (`spec_resolve_x` / `spec_resolve_y` are the claim's formulas:
horizontal against the screen-buffer width, vertical viewport-relative with
`Absolute(y) = srWindow.Top + y` and `EndRelative(d) = srWindow.Bottom - d`),
provided the resolved values stay in `i16` range; the console cursor ends up
at that position. -/
theorem cursor_position_resolution (attr0 : CellAttributes) (info : BufferInfo)
    (px py : Position) (hx : posInRangeH info px) (hy : posInRangeV info py) :
    (render_change ⟨attr0, info, []⟩ (Change.cursorPosition px py)).events
        = [Event.flush, Event.getBufferInfo,
            Event.setCursorPosition (spec_resolve_x info px) (spec_resolve_y info py)] ∧
    (render_change ⟨attr0, info, []⟩ (Change.cursorPosition px py)).info.dwCursorPositionX
        = spec_resolve_x info px ∧
    (render_change ⟨attr0, info, []⟩ (Change.cursorPosition px py)).info.dwCursorPositionY
        = spec_resolve_y info py := by
  have ex := resolve_x_eq_spec info px hx
  have ey := resolve_y_eq_spec info py hy
  refine ⟨?_, ?_, ?_⟩ <;>
    simp [render_change, out_flush, out_get_buffer_info, out_set_cursor_position, emit, ex, ey]

/-- Witness for C6: in `info0` (viewport top = 5), `CursorPosition{x =
Absolute(7), y = Absolute(0)}` moves the cursor to `(7, 5)` — row
`srWindow.Top`, not row 0 of the screen buffer. -/
theorem cursor_position_resolution_witness :
    posInRangeH info0 (Position.absolute 7) ∧ posInRangeV info0 (Position.absolute 0) ∧
    (render_change ⟨defaultAttributes, info0, []⟩
        (Change.cursorPosition (Position.absolute 7) (Position.absolute 0))).events
      = [Event.flush, Event.getBufferInfo, Event.setCursorPosition 7 5] := by
  have hx : posInRangeH info0 (Position.absolute 7) := by
    simp only [posInRangeH]
    norm_num
  have hy : posInRangeV info0 (Position.absolute 0) := by
    simp only [posInRangeV, info0]
    norm_num
  refine ⟨hx, hy, ?_⟩
  have h := (cursor_position_resolution defaultAttributes info0
    (Position.absolute 7) (Position.absolute 0) hx hy).1
  rw [h]
  norm_num [spec_resolve_x, spec_resolve_y, info0]

/-- C8: a `ScrollRegionUp`/`ScrollRegionDown` change with `region_size = 0`
makes no console call at all and leaves the state untouched; with
`region_size > 0` it issues exactly one `get_buffer_info` followed by one
`scroll_region` over columns `srWindow.Left ..= srWindow.Right` and rows
`srWindow.Top + first_row ..= srWindow.Top + first_row + region_size`,
scrolling vertically by `-scroll_count` (Up) or `+scroll_count` (Down) and
filling vacated cells with the current attribute word. -/
theorem scroll_region_changes (attr0 : CellAttributes) (info : BufferInfo) (ev : List Event) :
    (∀ f sc, render_change ⟨attr0, info, ev⟩ (Change.scrollRegionUp f 0 sc)
        = ⟨attr0, info, ev⟩) ∧
    (∀ f sc, render_change ⟨attr0, info, ev⟩ (Change.scrollRegionDown f 0 sc)
        = ⟨attr0, info, ev⟩) ∧
    (∀ f rs sc, 0 < rs → scrollBounds info f rs sc →
      (render_change ⟨attr0, info, ev⟩ (Change.scrollRegionUp f rs sc)).events
        = ev ++ [Event.getBufferInfo,
            Event.scrollRegion info.srWindowLeft (info.srWindowTop + f) info.srWindowRight
              (info.srWindowTop + f + rs) 0 (-(sc : Int)) (to_attr_word attr0)]) ∧
    (∀ f rs sc, 0 < rs → scrollBounds info f rs sc →
      (render_change ⟨attr0, info, ev⟩ (Change.scrollRegionDown f rs sc)).events
        = ev ++ [Event.getBufferInfo,
            Event.scrollRegion info.srWindowLeft (info.srWindowTop + f) info.srWindowRight
              (info.srWindowTop + f + rs) 0 (sc : Int) (to_attr_word attr0)]) := by
  refine ⟨fun f sc => by simp [render_change], fun f sc => by simp [render_change],
    ?_, ?_⟩ <;>
  · intro f rs sc hrs hb
    obtain ⟨b1, b2, b3, b4, b5⟩ := hb
    simp [render_change, hrs, out_get_buffer_info, out_scroll_region, emit]
    unfold asI16
    omega

/-- Witness for C8: with `info0` (viewport rows 5–29), `ScrollRegionUp
{first_row: 1, region_size: 2, scroll_count: 1}` issues one `scroll_region`
over rows 6–8, `dy = -1`; `region_size = 0` issues nothing. -/
theorem scroll_region_changes_witness :
    (0 < 2 ∧ scrollBounds info0 1 2 1) ∧
    (render_change ⟨defaultAttributes, info0, []⟩ (Change.scrollRegionUp 1 2 1)).events
      = [Event.getBufferInfo, Event.scrollRegion 0 6 79 8 0 (-1) 15] ∧
    render_change ⟨defaultAttributes, info0, []⟩ (Change.scrollRegionUp 1 0 9)
      = ⟨defaultAttributes, info0, []⟩ := by
  have hb : scrollBounds info0 1 2 1 := by
    simp only [scrollBounds, info0]
    norm_num
  refine ⟨⟨by norm_num, hb⟩, ?_, ?_⟩
  · have h := (scroll_region_changes defaultAttributes info0 []).2.2.1 1 2 1 (by norm_num) hb
    rw [h]
    decide
  · exact (scroll_region_changes defaultAttributes info0 []).1 1 9

/-- C9: an `Image{width = w, height = h}` change with the cursor at
`(cx, cy)` issues one `fill_char(' ', cx, cy + i, w)` per row `i < h` in
order, then parks the cursor at `(cx + w, cy)`, provided the coordinates stay
in `i16` range. -/
theorem image_fallback (attr0 : CellAttributes) (info : BufferInfo) (w h : Nat)
    (hw : (w : Int) < 32768)
    (hx1 : -32768 ≤ info.dwCursorPositionX + w)
    (hx2 : info.dwCursorPositionX + w < 32768)
    (hy1 : -32768 ≤ info.dwCursorPositionY)
    (hy2 : (h : Int) + info.dwCursorPositionY ≤ 32768)
    (hh : (h : Int) ≤ 32768) :
    (render_change ⟨attr0, info, []⟩ (Change.image w h)).events
        = [Event.flush, Event.getBufferInfo]
          ++ (List.range h).map
              (fun (i : Nat) => Event.fillChar ' ' info.dwCursorPositionX
                (info.dwCursorPositionY + (i : Int)) w)
          ++ [Event.setCursorPosition (info.dwCursorPositionX + w) info.dwCursorPositionY] ∧
    (render_change ⟨attr0, info, []⟩ (Change.image w h)).info.dwCursorPositionX
        = info.dwCursorPositionX + w ∧
    (render_change ⟨attr0, info, []⟩ (Change.image w h)).info.dwCursorPositionY
        = info.dwCursorPositionY := by
  have ecnt : asU32 w = w := by unfold asU32; omega
  have ecur : asI16 (info.dwCursorPositionX + asI16 w) = info.dwCursorPositionX + w := by
    unfold asI16; omega
  have emap : (List.range h).map
        (fun (y : Nat) => Event.fillChar ' ' info.dwCursorPositionX
          (asI16 (asI16 y + info.dwCursorPositionY)) (asU32 w))
      = (List.range h).map
        (fun (i : Nat) => Event.fillChar ' ' info.dwCursorPositionX
          (info.dwCursorPositionY + (i : Int)) w) := by
    apply List.map_congr_left
    intro i hi
    have hih : i < h := List.mem_range.mp hi
    have hi32 : (i : Int) < 32768 := by omega
    have e1 : asI16 i = i := by unfold asI16; omega
    have e2 : asI16 ((i : Int) + info.dwCursorPositionY)
        = info.dwCursorPositionY + i := by
      unfold asI16; omega
    rw [e1, e2, ecnt]
  refine ⟨?_, ?_, ?_⟩ <;>
  · simp only [render_change, out_flush, out_get_buffer_info, emit]
    rw [foldl_out_fill_char]
    simp [out_set_cursor_position, emit, emap, ecur]

/-- Witness for C9: the claim's concrete instance — `Image{w = 3, h = 2}` at
cursor `(5, 4)` issues `fill_char(' ', 5, 4, 3)` then `fill_char(' ', 5, 5,
3)` and leaves the cursor at `(8, 4)`. -/
theorem image_fallback_witness :
    (render_change ⟨defaultAttributes,
        { info0 with dwCursorPositionX := 5, dwCursorPositionY := 4 }, []⟩
        (Change.image 3 2)).events
      = [Event.flush, Event.getBufferInfo,
         Event.fillChar ' ' 5 4 3, Event.fillChar ' ' 5 5 3,
         Event.setCursorPosition 8 4] ∧
    (render_change ⟨defaultAttributes,
        { info0 with dwCursorPositionX := 5, dwCursorPositionY := 4 }, []⟩
        (Change.image 3 2)).info.dwCursorPositionX = 8 := by
  have h := image_fallback defaultAttributes
    { info0 with dwCursorPositionX := 5, dwCursorPositionY := 4 } 3 2
    (by norm_num) (by norm_num [info0]) (by norm_num [info0])
    (by norm_num [info0]) (by norm_num [info0]) (by norm_num)
  refine ⟨?_, ?_⟩
  · rw [h.1]
    decide
  · rw [h.2.1]
    decide

/-- C10: in the `ClearToEndOfLine` and `ClearToEndOfScreen` arms the fill
count for the cursor's row is the saturating subtraction
`dwSize.X - dwCursorPosition.X` (`Nat` subtraction of the `u32` casts), so
the fills are issued with count 0 — with no underflow — whenever the cursor
column is at or beyond the screen-buffer width. -/
theorem clear_to_end_saturating (attr0 : CellAttributes) (info : BufferInfo)
    (color : ColorAttribute)
    (h0 : 0 ≤ info.dwSizeX) (h1 : info.dwSizeX < 32768)
    (h2 : 0 ≤ info.dwCursorPositionX) (h3 : info.dwCursorPositionX < 32768)
    (h4 : -32768 ≤ info.dwCursorPositionY) (h5 : info.dwCursorPositionY + 1 < 32768) :
    ((render_change ⟨attr0, info, []⟩ (Change.clearToEndOfLine color)).events
      = [Event.flush, Event.getBufferInfo,
         Event.fillChar ' ' info.dwCursorPositionX info.dwCursorPositionY
           (info.dwSizeX.toNat - info.dwCursorPositionX.toNat),
         Event.fillAttr (to_attr_word { defaultAttributes with background := color })
           info.dwCursorPositionX info.dwCursorPositionY
           (info.dwSizeX.toNat - info.dwCursorPositionX.toNat)]) ∧
    (∃ n2 : Nat,
      (render_change ⟨attr0, info, []⟩ (Change.clearToEndOfScreen color)).events
        = [Event.flush, Event.getBufferInfo,
           Event.fillChar ' ' info.dwCursorPositionX info.dwCursorPositionY
             (info.dwSizeX.toNat - info.dwCursorPositionX.toNat),
           Event.fillAttr (to_attr_word { defaultAttributes with background := color })
             info.dwCursorPositionX info.dwCursorPositionY
             (info.dwSizeX.toNat - info.dwCursorPositionX.toNat),
           Event.fillChar ' ' 0 (info.dwCursorPositionY + 1) n2,
           Event.fillAttr (to_attr_word { defaultAttributes with background := color })
             0 (info.dwCursorPositionY + 1) n2]) ∧
    (info.dwSizeX ≤ info.dwCursorPositionX →
      info.dwSizeX.toNat - info.dwCursorPositionX.toNat = 0) := by
  have ew : asU32 info.dwSizeX - asU32 info.dwCursorPositionX
      = info.dwSizeX.toNat - info.dwCursorPositionX.toNat := by
    unfold asU32; omega
  have ey : asI16 (info.dwCursorPositionY + 1) = info.dwCursorPositionY + 1 := by
    unfold asI16; omega
  refine ⟨?_, ?_, by omega⟩
  · simp [render_change, out_flush, out_get_buffer_info, out_fill_char, out_fill_attr,
      emit, ew]
  · refine ⟨u32mul (asU32 info.dwSizeX)
      (asU32 info.dwSizeY - u32add (asU32 info.dwCursorPositionY) 1), ?_⟩
    simp [render_change, out_flush, out_get_buffer_info, out_fill_char, out_fill_attr,
      emit, ew, ey]

/-- Witness for C10: with the cursor at column 85 of an 80-column buffer, the
cursor-row fills of `ClearToEndOfLine` are issued with count 0. -/
theorem clear_to_end_saturating_witness :
    ((80 : Int) ≤ 85) ∧
    (render_change ⟨defaultAttributes, { info0 with dwCursorPositionX := 85 }, []⟩
        (Change.clearToEndOfLine ColorAttribute.default)).events
      = [Event.flush, Event.getBufferInfo,
         Event.fillChar ' ' 85 10 0, Event.fillAttr 15 85 10 0] := by
  have h := clear_to_end_saturating defaultAttributes
    { info0 with dwCursorPositionX := 85 } ColorAttribute.default
    (by norm_num [info0]) (by norm_num [info0]) (by norm_num [info0])
    (by norm_num [info0]) (by norm_num [info0]) (by norm_num [info0])
  refine ⟨by norm_num, ?_⟩
  rw [h.1]
  decide

/-- C4: a `ClearScreen(color)` change fills spaces and the attribute word over
the full screen-buffer width for every row from `srWindow.Top` down to the
end of the buffer, leaves every buffer cell in the rows strictly above
`srWindow.Top` unmodified, and parks the cursor at `(0, srWindow.Top)`. -/
theorem clear_screen_effect (attr0 : CellAttributes) (info : BufferInfo)
    (color : ColorAttribute)
    (h1 : 0 ≤ info.srWindowTop) (h2 : info.srWindowTop ≤ info.dwSizeY)
    (h3 : 0 ≤ info.dwSizeX) (h4 : info.dwSizeX < 32768) (h5 : info.dwSizeY < 32768) :
    (∀ (g : Grid) (a b : Int), 0 ≤ a → a < info.dwSizeX →
        info.srWindowTop ≤ b → b < info.dwSizeY →
        applyEvents info.dwSizeX g
            (render_change ⟨attr0, info, []⟩ (Change.clearScreen color)).events a b
          = { ch := ' ',
              attr := to_attr_word { defaultAttributes with background := color } }) ∧
    (∀ (g : Grid) (a b : Int), 0 ≤ a → a < info.dwSizeX → b < info.srWindowTop →
        applyEvents info.dwSizeX g
            (render_change ⟨attr0, info, []⟩ (Change.clearScreen color)).events a b
          = g a b) ∧
    (render_change ⟨attr0, info, []⟩ (Change.clearScreen color)).info.dwCursorPositionX
        = 0 ∧
    (render_change ⟨attr0, info, []⟩ (Change.clearScreen color)).info.dwCursorPositionY
        = info.srWindowTop := by
  have hNle : u32mul (asU32 info.dwSizeX) (u32sub (asU32 info.dwSizeY) (asU32 info.srWindowTop))
      = info.dwSizeX.toNat * (info.dwSizeY.toNat - info.srWindowTop.toNat) := by
    unfold u32mul u32sub asU32
    have e1 : (info.dwSizeX % 4294967296).toNat = info.dwSizeX.toNat := by omega
    have e2 : (info.dwSizeY % 4294967296).toNat = info.dwSizeY.toNat := by omega
    have e3 : (info.srWindowTop % 4294967296).toNat = info.srWindowTop.toNat := by omega
    rw [e1, e2, e3]
    have e4 : (info.dwSizeY.toNat + 4294967296 - info.srWindowTop.toNat) % 4294967296
        = info.dwSizeY.toNat - info.srWindowTop.toNat := by omega
    rw [e4]
    apply Nat.mod_eq_of_lt
    have hb1 : info.dwSizeX.toNat ≤ 32767 := by omega
    have hb2 : info.dwSizeY.toNat - info.srWindowTop.toNat ≤ 32767 := by omega
    calc info.dwSizeX.toNat * (info.dwSizeY.toNat - info.srWindowTop.toNat)
        ≤ 32767 * 32767 := Nat.mul_le_mul hb1 hb2
      _ < 4294967296 := by norm_num
  have hNInt : ((u32mul (asU32 info.dwSizeX)
        (u32sub (asU32 info.dwSizeY) (asU32 info.srWindowTop)) : Nat) : Int)
      = info.dwSizeX * (info.dwSizeY - info.srWindowTop) := by
    rw [hNle]
    push_cast [Nat.cast_sub (by omega : info.srWindowTop.toNat ≤ info.dwSizeY.toNat)]
    rw [Int.toNat_of_nonneg h3, Int.toNat_of_nonneg (h1.trans h2), Int.toNat_of_nonneg h1]
  refine ⟨?_, ?_, ?_, ?_⟩
  · intro g a b ha1 ha2 hb1 hb2
    have hlow : info.dwSizeX * info.srWindowTop ≤ info.dwSizeX * b + a := by
      have := mul_le_mul_of_nonneg_left hb1 h3
      linarith
    have hup : info.dwSizeX * b + a
        < info.dwSizeX * info.srWindowTop
          + ((u32mul (asU32 info.dwSizeX)
              (u32sub (asU32 info.dwSizeY) (asU32 info.srWindowTop)) : Nat) : Int) := by
      rw [hNInt]
      have hble : b ≤ info.dwSizeY - 1 := by omega
      have := mul_le_mul_of_nonneg_left hble h3
      nlinarith
    by_cases hL : info.srWindowLeft = 0
    · simp only [render_change, hL, out_flush, out_get_buffer_info, out_set_viewport,
        out_fill_char, out_fill_attr, out_set_cursor_position, emit, if_neg,
        ne_eq, not_true_eq_false, if_false, ite_false, not_false_eq_true, ite_true,
        applyEvents, List.foldl, applyEvent, List.nil_append, List.append_assoc,
        List.cons_append]
      split_ifs with hc
      · rfl
      · exfalso
        apply hc
        refine ⟨ha1, ha2, by linarith, by linarith⟩
    · simp only [render_change, hL, out_flush, out_get_buffer_info, out_set_viewport,
        out_fill_char, out_fill_attr, out_set_cursor_position, emit, if_neg,
        ne_eq, not_true_eq_false, if_false, ite_false, not_false_eq_true, ite_true,
        applyEvents, List.foldl, applyEvent, List.nil_append, List.append_assoc,
        List.cons_append]
      split_ifs with hc
      · rfl
      · exfalso
        apply hc
        refine ⟨ha1, ha2, by linarith, by linarith⟩
  · intro g a b ha1 ha2 hb1
    have habove : info.dwSizeX * b + a < info.dwSizeX * info.srWindowTop := by
      have hble : b ≤ info.srWindowTop - 1 := by omega
      have := mul_le_mul_of_nonneg_left hble h3
      nlinarith
    by_cases hL : info.srWindowLeft = 0
    · simp only [render_change, hL, out_flush, out_get_buffer_info, out_set_viewport,
        out_fill_char, out_fill_attr, out_set_cursor_position, emit, if_neg,
        ne_eq, not_true_eq_false, if_false, ite_false, not_false_eq_true, ite_true,
        applyEvents, List.foldl, applyEvent, List.nil_append, List.append_assoc,
        List.cons_append]
      split_ifs with hc
      · exfalso
        obtain ⟨c1, c2, c3, c4⟩ := hc
        linarith
      · rfl
    · simp only [render_change, hL, out_flush, out_get_buffer_info, out_set_viewport,
        out_fill_char, out_fill_attr, out_set_cursor_position, emit, if_neg,
        ne_eq, not_true_eq_false, if_false, ite_false, not_false_eq_true, ite_true,
        applyEvents, List.foldl, applyEvent, List.nil_append, List.append_assoc,
        List.cons_append]
      split_ifs with hc
      · exfalso
        obtain ⟨c1, c2, c3, c4⟩ := hc
        linarith
      · rfl
  · by_cases hL : info.srWindowLeft = 0 <;>
      simp [render_change, hL, out_flush, out_get_buffer_info, out_set_viewport,
        out_fill_char, out_fill_attr, out_set_cursor_position, emit]
  · by_cases hL : info.srWindowLeft = 0 <;>
      simp [render_change, hL, out_flush, out_get_buffer_info, out_set_viewport,
        out_fill_char, out_fill_attr, out_set_cursor_position, emit]

/-- Witness for C4: on the 4×6 buffer `info4` (viewport top = 2), clearing
with the default color turns cell `(1, 3)` into a space with attribute word
15, leaves cell `(1, 0)` — above the viewport top — untouched, and parks the
cursor at row 2. -/
theorem clear_screen_effect_witness :
    ((0 : Int) ≤ info4.srWindowTop ∧ info4.srWindowTop ≤ info4.dwSizeY) ∧
    applyEvents info4.dwSizeX gridQ
        (render_change ⟨defaultAttributes, info4, []⟩
          (Change.clearScreen ColorAttribute.default)).events 1 3
      = { ch := ' ', attr := 15 } ∧
    applyEvents info4.dwSizeX gridQ
        (render_change ⟨defaultAttributes, info4, []⟩
          (Change.clearScreen ColorAttribute.default)).events 1 0
      = gridQ 1 0 ∧
    (render_change ⟨defaultAttributes, info4, []⟩
        (Change.clearScreen ColorAttribute.default)).info.dwCursorPositionY = 2 := by
  have h := clear_screen_effect defaultAttributes info4 ColorAttribute.default
    (by norm_num [info4]) (by norm_num [info4]) (by norm_num [info4])
    (by norm_num [info4]) (by norm_num [info4])
  refine ⟨⟨by norm_num [info4], by norm_num [info4]⟩, ?_, ?_, ?_⟩
  · have he := h.1 gridQ 1 3 (by norm_num) (by norm_num [info4])
      (by norm_num [info4]) (by norm_num [info4])
    rw [he]
    decide
  · exact h.2.1 gridQ 1 0 (by norm_num) (by norm_num [info4]) (by norm_num [info4])
  · rw [h.2.2.2]
    decide
end Wez
